import Mathlib

/-!
Verification of the adaptive traffic-light controller.

This file gives a shallow embedding of the two controller variants of the
repository:

* `run_simulation_binary.py` — binary ultrasonic sensing with a debounce
  (persistence) window, priority scoring from the two occupancy flags, and
  the ALL_RED → winner selection → GREEN → YELLOW → ALL_RED state machine
  (`SimulationController.run_step`, lines 152–235);
* `run_simulation_queue_based.py` — multi-zone queue-length sensing
  (`measure_queue_length`, lines 105–153), weighted-queue scoring
  (`get_priority`, lines 155–188), `calculate_green_time` (lines 204–219)
  and the same state machine (`run_step`, lines 221–332).

Python floats are embedded as rationals (every constant of the program is a
small decimal), the simulation step counter as an integer, and the traci
perception feed as an oracle: per approach, `none` models the
`traci.edge.getLastStepVehicleIDs` call raising (caught at lines 69–72 /
119–122 and replaced by the empty list), and a `none` entry inside the list
models one of the per-vehicle traci queries raising (caught by the inner
`try`/`except: pass`, lines 78–90 / 130–146, so that the vehicle contributes
nothing).  The state machine of both files is literally the same code, so it
is embedded once (`runStepCore`) and instantiated with each variant's
scoring and green-time functions, exactly as the two `run_step` bodies do.
-/

namespace Traffic

/-- Signal colour of one approach.  The Python code stores the strings
`'RED'`/`'R'`, `'G'`, `'Y'` in `IntersectionState.current_light`; only the
three colours matter (the code compares against `'G'` and `'Y'` only). -/
inductive Light where
  | RED
  | GREEN
  | YELLOW
deriving DecidableEq, Repr

/-- One vehicle as seen by the perception feed: distance to the stop line
(`lane_length - pos` in the code) and current speed. -/
structure Vehicle where
  dist : ℚ
  speed : ℚ
deriving DecidableEq, Repr

/-- Perception oracle for one tick: for each of the three approaches, `none`
if querying the edge's vehicle list raises, otherwise the list of per-vehicle
readings, a `none` entry standing for a vehicle whose per-vehicle queries
raise. -/
abbrev Feed := Fin 3 → Option (List (Option Vehicle))

/-! ## Configuration constants (identical in both files unless noted) -/

/-- Minimum green time, seconds (`G_MIN = 10.0`). -/
def G_MIN : ℚ := 10

/-- Maximum green time, seconds (`G_MAX = 40.0`). -/
def G_MAX : ℚ := 40

/-- Yellow duration, seconds (`YELLOW_TIME = 3.0`). -/
def YELLOW_TIME : ℚ := 3

/-- All-red gap duration, seconds (`ALL_RED_TIME = 1.0`). -/
def ALL_RED_TIME : ℚ := 1

/-- Binary variant: near ultrasonic radius (`NEAR_SENSOR_DISTANCE = 20.0`). -/
def NEAR_SENSOR_DISTANCE : ℚ := 20

/-- Binary variant: far ultrasonic radius (`FAR_SENSOR_DISTANCE = 50.0`). -/
def FAR_SENSOR_DISTANCE : ℚ := 50

/-- Binary variant: persistence (debounce) window in ticks (`SENSOR_DELAY = 10`). -/
def SENSOR_DELAY : ℤ := 10

/-- Queue variant: near zone outer radius (`ZONE_NEAR = 25.0`). -/
def ZONE_NEAR : ℚ := 25

/-- Queue variant: medium zone outer radius (`ZONE_MEDIUM = 60.0`). -/
def ZONE_MEDIUM : ℚ := 60

/-- Queue variant: far zone outer radius (`ZONE_FAR = 100.0`). -/
def ZONE_FAR : ℚ := 100

/-- Queue variant: weight of a near-zone vehicle (`WEIGHT_NEAR = 3.0`). -/
def WEIGHT_NEAR : ℚ := 3

/-- Queue variant: weight of a medium-zone vehicle (`WEIGHT_MEDIUM = 2.0`). -/
def WEIGHT_MEDIUM : ℚ := 2

/-- Queue variant: weight of a far-zone vehicle (`WEIGHT_FAR = 1.0`). -/
def WEIGHT_FAR : ℚ := 1

/-! ## Python `round(·, 1)` -/

/-- Round a rational to the nearest integer, halves to the even integer:
the tie-breaking rule of Python's built-in `round`. -/
def roundHalfEven (x : ℚ) : ℤ :=
  if x - ⌊x⌋ < 1/2 then ⌊x⌋
  else if 1/2 < x - ⌊x⌋ then ⌊x⌋ + 1
  else if ⌊x⌋ % 2 = 0 then ⌊x⌋ else ⌊x⌋ + 1

/-- Python's `round(x, 1)`: round to one decimal digit, halves to even. -/
def pyRound1 (x : ℚ) : ℚ :=
  (roundHalfEven (x * 10) : ℚ) / 10

/-! ## Binary-sensor variant: detection (`update_sensors`, lines 64–116) -/

/-- Debounce state of one ultrasonic sensor: the tick at which the current
continuous detection started (`0` doubling as "no detection in progress",
exactly as in the Python code, which initialises `near_detect_time`/
`far_detect_time` to `0` and resets them to `0`), and the debounced
occupancy flag. -/
structure SensorSt where
  detect_time : ℤ
  occupied : Bool
deriving DecidableEq, Repr

/-- One debounce update (the code block at lines 95–104, repeated verbatim
for the far sensor at lines 107–116): if the candidate is detected now,
latch the start tick if none is latched, and set the occupancy flag exactly
when the detection has persisted for `SENSOR_DELAY` ticks; otherwise clear
both the timer and the flag. -/
def debounceStep (detected_now : Bool) (step : ℤ) (st : SensorSt) : SensorSt :=
  if detected_now then
    let t := if st.detect_time = 0 then step else st.detect_time
    if SENSOR_DELAY ≤ step - t then ⟨t, true⟩ else ⟨t, false⟩
  else
    ⟨0, false⟩

/-- Detection fields of one approach in the binary variant
(`near_sensor_occupied`, `far_sensor_occupied`, `near_detect_time`,
`far_detect_time` of `IntersectionState`). -/
structure BinDet where
  near : SensorSt
  far : SensorSt
deriving DecidableEq, Repr

/-- Whether one perception reading raises the near candidate (lines 85–86):
a vehicle within `NEAR_SENSOR_DISTANCE` of the stop line moving slower than
0.5 m/s; a failed per-vehicle query contributes nothing. -/
def vehNear (ov : Option Vehicle) : Bool :=
  match ov with
  | none => false
  | some v => decide (v.dist ≤ NEAR_SENSOR_DISTANCE ∧ v.speed < 1/2)

/-- Whether one perception reading raises the far candidate (lines 87–88). -/
def vehFar (ov : Option Vehicle) : Bool :=
  match ov with
  | none => false
  | some v => decide (v.dist ≤ FAR_SENSOR_DISTANCE ∧ v.speed < 1/2)

/-- `near_detected_now` after the vehicle loop of lines 74–90. -/
def nearDetectedNow (vs : List (Option Vehicle)) : Bool :=
  vs.any vehNear

/-- `far_detected_now` after the vehicle loop of lines 74–90. -/
def farDetectedNow (vs : List (Option Vehicle)) : Bool :=
  vs.any vehFar

/-- Sensor update of a single approach: candidates from the vehicle list,
then one debounce step per sensor (lines 74–116). -/
def senseBinApproach (vs : List (Option Vehicle)) (step : ℤ) (d : BinDet) : BinDet :=
  { near := debounceStep (nearDetectedNow vs) step d.near
    far := debounceStep (farDetectedNow vs) step d.far }

/-! ## Queue-length variant: detection (`measure_queue_length`, lines 105–153) -/

/-- Detection fields of one approach in the queue variant (`vehicles_near`,
`vehicles_medium`, `vehicles_far`, `total_queue_length`). -/
structure QDet where
  vehicles_near : ℕ
  vehicles_medium : ℕ
  vehicles_far : ℕ
  total_queue_length : ℕ
deriving DecidableEq, Repr

/-- The per-vehicle `if`/`elif` chain of lines 138–144, applied to the whole
vehicle list (a failed per-vehicle query contributes nothing, lines
145–146): returns `(near_count, medium_count, far_count)`. -/
def countZones : List (Option Vehicle) → ℕ × ℕ × ℕ
  | [] => (0, 0, 0)
  | ov :: rest =>
    let acc := countZones rest
    match ov with
    | none => acc
    | some v =>
      if v.speed < 2 then
        if v.dist ≤ ZONE_NEAR then (acc.1 + 1, acc.2.1, acc.2.2)
        else if v.dist ≤ ZONE_MEDIUM then (acc.1, acc.2.1 + 1, acc.2.2)
        else if v.dist ≤ ZONE_FAR then (acc.1, acc.2.1, acc.2.2 + 1)
        else acc
      else acc

/-- Boolean predicate "this reading is counted into the near bucket": the
vehicle was readable, is slower than the 2.0 m/s congestion threshold and
within `ZONE_NEAR` (first branch of the `if`/`elif` chain). -/
def qNearPred (ov : Option Vehicle) : Bool :=
  match ov with
  | none => false
  | some v => decide (v.speed < 2 ∧ v.dist ≤ ZONE_NEAR)

/-- Boolean predicate "counted into the medium bucket" (second branch of
the chain: beyond `ZONE_NEAR`, within `ZONE_MEDIUM`). -/
def qMediumPred (ov : Option Vehicle) : Bool :=
  match ov with
  | none => false
  | some v => decide (v.speed < 2 ∧ ZONE_NEAR < v.dist ∧ v.dist ≤ ZONE_MEDIUM)

/-- Boolean predicate "counted into the far bucket" (third branch of the
chain: beyond `ZONE_MEDIUM`, within `ZONE_FAR`). -/
def qFarPred (ov : Option Vehicle) : Bool :=
  match ov with
  | none => false
  | some v => decide (v.speed < 2 ∧ ZONE_MEDIUM < v.dist ∧ v.dist ≤ ZONE_FAR)

/-! ## Per-approach and controller state -/

/-- Per-approach state (`IntersectionState` of both files), generic in the
detection fields `δ` (`BinDet` or `QDet`). -/
structure InterState (δ : Type) where
  current_light : Light
  last_green_end : ℤ
  state_start : ℤ
  planned_duration : ℚ
  consecutive_greens : ℕ
  det : δ
deriving DecidableEq, Repr

/-- Controller state (`SimulationController` of both files; the pure
reporting counters `total_waiting_time`, `vehicles_processed`,
`cycle_data`, `sensor_data` are out of scope).  `active_idx = -1` is
embedded as `none`. -/
structure CtrlState (δ : Type) where
  inters : Fin 3 → InterState δ
  active_idx : Option (Fin 3)
  is_all_red : Bool
  all_red_start : ℤ
  cycle_count : ℕ

/-- Initial per-approach state (`IntersectionState.__init__`). -/
def initInter (d : δ) : InterState δ :=
  { current_light := Light.RED
    last_green_end := 0
    state_start := 0
    planned_duration := 0
    consecutive_greens := 0
    det := d }

/-- Initial controller state (`SimulationController.__init__` of both
files): three fresh approaches, no active approach, in the all-red gap
started at tick 0.  Note that the constructor reads no configuration
constant and performs no validation. -/
def initCtrl (d : δ) : CtrlState δ :=
  { inters := fun _ => initInter d
    active_idx := none
    is_all_red := true
    all_red_start := 0
    cycle_count := 0 }

/-- Initial binary-variant controller (all sensor timers zero, flags false). -/
def initBin : CtrlState BinDet :=
  initCtrl { near := ⟨0, false⟩, far := ⟨0, false⟩ }

/-- Initial queue-variant controller (all zone counts zero). -/
def initQueue : CtrlState QDet :=
  initCtrl { vehicles_near := 0, vehicles_medium := 0, vehicles_far := 0
             total_queue_length := 0 }

/-! ## Priority scoring and green-time allocation -/

namespace Binary

/-- `SimulationController.get_priority` of `run_simulation_binary.py`
(lines 118–137): 1.0 for a debounced near occupancy, 2.0 for far, a waiting
bonus `min((step - last_green_end)/120, 1.0)`, minus 3.0 per consecutive
green, floored at 0.1. -/
def get_priority (inter : InterState BinDet) (step : ℤ) : ℚ :=
  let priority : ℚ :=
    (if inter.det.near.occupied then (1 : ℚ) else 0)
    + (if inter.det.far.occupied then (2 : ℚ) else 0)
    + min (((step - inter.last_green_end : ℤ) : ℚ) / 120) 1
    - (inter.consecutive_greens : ℚ) * 3
  max priority (1/10)

/-- The inline green-time computation of lines 199–203:
`G_MIN + priority * 7.5`, clamped to `[G_MIN, G_MAX]`, rounded to one
decimal. -/
def plan_green (priority : ℚ) : ℚ :=
  pyRound1 (min (max (G_MIN + priority * (15/2)) G_MIN) G_MAX)

end Binary

namespace Queue

/-- `SimulationController.get_priority` of `run_simulation_queue_based.py`
(lines 155–188): weighted zone counts, a waiting bonus
`min((step - last_green_end)/60, 2.0)`, minus 17.0 per consecutive green,
floored at 0.1. -/
def get_priority (inter : InterState QDet) (step : ℤ) : ℚ :=
  let queue_priority : ℚ :=
    (inter.det.vehicles_near : ℚ) * WEIGHT_NEAR
    + (inter.det.vehicles_medium : ℚ) * WEIGHT_MEDIUM
    + (inter.det.vehicles_far : ℚ) * WEIGHT_FAR
  let wait_bonus : ℚ := min (((step - inter.last_green_end : ℤ) : ℚ) / 60) 2
  let monopoly_penalty : ℚ := (inter.consecutive_greens : ℚ) * 17
  max (queue_priority + wait_bonus - monopoly_penalty) (1/10)

/-- `SimulationController.calculate_green_time` (lines 204–219), with the
module-level constants `G_MIN` and `G_MAX` lifted to parameters:
`gmin + priority * 1.5`, clamped to `[gmin, gmax]`, rounded to one
decimal.  The program calls it with `G_MIN` and `G_MAX`. -/
def calculate_green_time (gmin gmax priority : ℚ) : ℚ :=
  pyRound1 (min (max (gmin + priority * (3/2)) gmin) gmax)

end Queue

/-! ## The shared state machine (`run_step`, identical in both files) -/

/-- One step of the winner-search loop (`for i in range(3): if p > top_priority`,
lines 176–180 / 247–251). -/
def selStep (acc : Option (Fin 3) × ℚ) (i : Fin 3) (p : ℚ) : Option (Fin 3) × ℚ :=
  if p > acc.2 then (some i, p) else acc

/-- The full winner search: scan indices 0, 1, 2 in order against an initial
best of `(winner = -1, top_priority = -1.0)` with a strict `>` comparison;
`-1` is embedded as `none`. -/
def selectWinner (p : Fin 3 → ℚ) : Option (Fin 3) × ℚ :=
  selStep (selStep (selStep (none, -1) 0 (p 0)) 1 (p 1)) 2 (p 2)

/-- The traffic-light control section of `run_step` (lines 167–235 of the
binary file, 238–320 of the queue file — the two are textually the same
state machine), generic in the scoring function and the green-time plan:

* in the all-red gap, once `ALL_RED_TIME` has elapsed, search for the
  winner, force every non-winner to RED and clear its consecutive-green
  count, and — if a winner was found — record it active, start its phase
  timer, increment its consecutive-green count, compute its green time from
  its (re-scored, post-increment) priority, freeze it in
  `planned_duration`, and turn it GREEN;
* with an active approach, advance GREEN to YELLOW once `planned_duration`
  has elapsed, and YELLOW to RED once `YELLOW_TIME` has elapsed, recording
  `last_green_end`, clearing the active approach, bumping `cycle_count` and
  re-entering the all-red gap;
* with no active approach and the gap flag clear, re-enter the gap. -/
def runStepCore (score : InterState δ → ℤ → ℚ) (plan : ℚ → ℚ)
    (step : ℤ) (s : CtrlState δ) : CtrlState δ :=
  if s.is_all_red then
    if ALL_RED_TIME ≤ ((step - s.all_red_start : ℤ) : ℚ) then
      match (selectWinner fun i => score (s.inters i) step).1 with
      | none =>
        { s with is_all_red := false
                 inters := fun i => { s.inters i with current_light := Light.RED } }
      | some w =>
        { s with is_all_red := false
                 active_idx := some w
                 inters := fun i =>
                   if i = w then
                     let st1 := { s.inters i with
                                    state_start := step
                                    consecutive_greens := (s.inters i).consecutive_greens + 1 }
                     { st1 with planned_duration := plan (score st1 step)
                                current_light := Light.GREEN }
                   else
                     { s.inters i with current_light := Light.RED
                                       consecutive_greens := 0 } }
    else s
  else
    match s.active_idx with
    | some a =>
      let inter := s.inters a
      let elapsed : ℤ := step - inter.state_start
      if inter.current_light = Light.GREEN then
        if inter.planned_duration ≤ (elapsed : ℚ) then
          { s with inters := fun i =>
              if i = a then { inter with current_light := Light.YELLOW
                                         state_start := step }
              else s.inters i }
        else s
      else if inter.current_light = Light.YELLOW then
        if YELLOW_TIME ≤ (elapsed : ℚ) then
          { s with active_idx := none
                   is_all_red := true
                   all_red_start := step
                   cycle_count := s.cycle_count + 1
                   inters := fun i =>
                     if i = a then { inter with current_light := Light.RED
                                                last_green_end := step }
                     else s.inters i }
        else s
      else s
    | none =>
      { s with is_all_red := true, all_red_start := step }

namespace Binary

/-- `SimulationController.update_sensors` (lines 64–116): refresh both
debounced sensors of every approach from the feed; a raising edge query is
replaced by the empty vehicle list (lines 69–72). -/
def update_sensors (feed : Feed) (step : ℤ) (s : CtrlState BinDet) : CtrlState BinDet :=
  { s with inters := fun i =>
      { s.inters i with det := senseBinApproach ((feed i).getD []) step (s.inters i).det } }

/-- `SimulationController.run_step` of the binary file (lines 152–235):
sensors first, then the shared state machine with the binary scoring and
the inline binary green-time computation. -/
def run_step (feed : Feed) (step : ℤ) (s : CtrlState BinDet) : CtrlState BinDet :=
  runStepCore get_priority plan_green step (update_sensors feed step s)

end Binary

namespace Queue

/-- `SimulationController.measure_queue_length` (lines 105–153): recompute
the three zone counts and the total of every approach from scratch from the
feed; a raising edge query is replaced by the empty list (lines 119–122). -/
def measure_queue_length (feed : Feed) (s : CtrlState QDet) : CtrlState QDet :=
  { s with inters := fun i =>
      let c := countZones ((feed i).getD [])
      { s.inters i with det :=
          { vehicles_near := c.1
            vehicles_medium := c.2.1
            vehicles_far := c.2.2
            total_queue_length := c.1 + c.2.1 + c.2.2 } } }

/-- `SimulationController.run_step` of the queue file (lines 221–332):
queue measurement first, then the shared state machine with the queue
scoring and `calculate_green_time G_MIN G_MAX`. -/
def run_step (feed : Feed) (step : ℤ) (s : CtrlState QDet) : CtrlState QDet :=
  runStepCore get_priority (calculate_green_time G_MIN G_MAX) step
    (measure_queue_length feed s)

end Queue

/-- The binary-variant controller run: the driver loop of `main`
(lines 261–267), which calls `run_step(step)` for `step = 0, 1, 2, …`,
fed by the per-tick perception oracle `feeds`. -/
def binTrace (feeds : ℕ → Feed) : ℕ → CtrlState BinDet
  | 0 => initBin
  | n + 1 => Binary.run_step (feeds n) (n : ℤ) (binTrace feeds n)

/-- The queue-variant controller run (driver loop at lines 352–358). -/
def queueTrace (feeds : ℕ → Feed) : ℕ → CtrlState QDet
  | 0 => initQueue
  | n + 1 => Queue.run_step (feeds n) (n : ℤ) (queueTrace feeds n)

/-- Iterated debounce on a constantly-true candidate: `debounceTrueRun s k`
is the sensor state after feeding `detected_now = true` at ticks
`s, s+1, …, s+k` into a fresh sensor. -/
def debounceTrueRun (s : ℤ) : ℕ → SensorSt
  | 0 => debounceStep true s ⟨0, false⟩
  | k + 1 => debounceStep true (s + (k + 1 : ℕ)) (debounceTrueRun s k)

/-- The controller-level state-machine invariant from which mutual
exclusion follows: every approach other than the active one shows RED. -/
def ActiveInv (s : CtrlState δ) : Prop :=
  ∀ i : Fin 3, s.active_idx ≠ some i → (s.inters i).current_light = Light.RED

end Traffic

namespace Traffic

/-! # Helper lemmas about rounding -/

theorem le_roundHalfEven {a : ℤ} {x : ℚ} (h : (a : ℚ) ≤ x) : a ≤ roundHalfEven x := by
  have hn : a ≤ ⌊x⌋ := Int.le_floor.mpr h
  unfold roundHalfEven
  split_ifs <;> omega

theorem roundHalfEven_le {b : ℤ} {x : ℚ} (h : x ≤ (b : ℚ)) : roundHalfEven x ≤ b := by
  have hfl : ⌊x⌋ ≤ b := by
    have h1 : ((⌊x⌋ : ℤ) : ℚ) ≤ (b : ℚ) := (Int.floor_le x).trans h
    exact_mod_cast h1
  have hflx : ((⌊x⌋ : ℤ) : ℚ) ≤ x := Int.floor_le x
  unfold roundHalfEven
  split_ifs with h1 h2 h3
  · exact hfl
  · have hlt : ((⌊x⌋ : ℤ) : ℚ) < (b : ℚ) := by linarith
    have : ⌊x⌋ < b := by exact_mod_cast hlt
    omega
  · exact hfl
  · have hge : ((⌊x⌋ : ℤ) : ℚ) + 1/2 ≤ x := by linarith [not_lt.mp h1]
    have hlt : ((⌊x⌋ : ℤ) : ℚ) < (b : ℚ) := by linarith
    have : ⌊x⌋ < b := by exact_mod_cast hlt
    omega

theorem roundHalfEven_intCast (n : ℤ) : roundHalfEven (n : ℚ) = n := by
  unfold roundHalfEven
  rw [Int.floor_intCast]
  norm_num

theorem le_pyRound1 {a : ℤ} {x : ℚ} (h : (a : ℚ) ≤ x) : (a : ℚ) ≤ pyRound1 x := by
  unfold pyRound1
  have h10 : ((10 * a : ℤ) : ℚ) ≤ x * 10 := by push_cast; linarith
  have hr : 10 * a ≤ roundHalfEven (x * 10) := le_roundHalfEven h10
  have hrq : ((10 * a : ℤ) : ℚ) ≤ (roundHalfEven (x * 10) : ℚ) := by exact_mod_cast hr
  rw [le_div_iff₀ (by norm_num : (0 : ℚ) < 10)]
  push_cast at hrq ⊢
  linarith

theorem pyRound1_le {b : ℤ} {x : ℚ} (h : x ≤ (b : ℚ)) : pyRound1 x ≤ (b : ℚ) := by
  unfold pyRound1
  have h10 : x * 10 ≤ ((10 * b : ℤ) : ℚ) := by push_cast; linarith
  have hr : roundHalfEven (x * 10) ≤ 10 * b := roundHalfEven_le h10
  have hrq : (roundHalfEven (x * 10) : ℚ) ≤ ((10 * b : ℤ) : ℚ) := by exact_mod_cast hr
  rw [div_le_iff₀ (by norm_num : (0 : ℚ) < 10)]
  push_cast at hrq ⊢
  linarith

theorem pyRound1_intCast (n : ℤ) : pyRound1 (n : ℚ) = (n : ℚ) := by
  unfold pyRound1
  have hc : (n : ℚ) * 10 = ((n * 10 : ℤ) : ℚ) := by push_cast; ring
  rw [hc, roundHalfEven_intCast]
  push_cast
  field_simp

/-- The clamp-then-round shape shared by both green-time computations
keeps its result inside `[10, 40]`. -/
theorem pyRound1_clamp_range (x : ℚ) :
    (10 : ℚ) ≤ pyRound1 (min (max x 10) 40) ∧ pyRound1 (min (max x 10) 40) ≤ 40 := by
  have h1 : (10 : ℚ) ≤ min (max x 10) 40 := le_min (le_max_right _ _) (by norm_num)
  have h2 : min (max x 10) 40 ≤ 40 := min_le_right _ _
  have ha := le_pyRound1 (a := 10) (x := min (max x 10) 40) (by exact_mod_cast h1)
  have hb := pyRound1_le (b := 40) (x := min (max x 10) 40) (by exact_mod_cast h2)
  constructor
  · exact_mod_cast ha
  · exact_mod_cast hb

theorem plan_green_range (p : ℚ) :
    G_MIN ≤ Binary.plan_green p ∧ Binary.plan_green p ≤ G_MAX := by
  have h := pyRound1_clamp_range (G_MIN + p * (15/2))
  unfold Binary.plan_green
  simp only [G_MIN, G_MAX] at h ⊢
  exact h

theorem calculate_green_time_range (p : ℚ) :
    G_MIN ≤ Queue.calculate_green_time G_MIN G_MAX p ∧
      Queue.calculate_green_time G_MIN G_MAX p ≤ G_MAX := by
  have h := pyRound1_clamp_range (G_MIN + p * (3/2))
  unfold Queue.calculate_green_time
  simp only [G_MIN, G_MAX] at h ⊢
  exact h

/-! # C2 — score floor -/

/-- C2.  Score floor: in both the binary-sensor and the queue-length
variants, `get_priority` returns at least 0.1 (= 1/10), whatever the
detection fields, last-green-end tick, and consecutive-green count of the
approach record and whatever the tick. -/
theorem priority_floor :
    ∀ (stB : InterState BinDet) (stQ : InterState QDet) (step : ℤ),
      1/10 ≤ Binary.get_priority stB step ∧ 1/10 ≤ Queue.get_priority stQ step := by
  intro stB stQ step
  constructor
  · simp only [Binary.get_priority]
    exact le_max_right _ _
  · simp only [Queue.get_priority]
    exact le_max_right _ _

/-! # C7 — starvation monotonicity -/

/-- C7.  Starvation monotonicity: with the detection fields, the
consecutive-green count and the last-green-end tick of an approach held
fixed, the priority score of both variants is non-decreasing in the tick
argument (the wait-bonus term grows with the wait until its cap). -/
theorem starvation_monotonicity :
    ∀ (stB : InterState BinDet) (stQ : InterState QDet) (t1 t2 : ℤ), t1 < t2 →
      Binary.get_priority stB t1 ≤ Binary.get_priority stB t2 ∧
      Queue.get_priority stQ t1 ≤ Queue.get_priority stQ t2 := by
  intro stB stQ t1 t2 h
  constructor
  · simp only [Binary.get_priority]
    apply max_le_max _ le_rfl
    have hd : ((t1 - stB.last_green_end : ℤ) : ℚ) / 120 ≤
        ((t2 - stB.last_green_end : ℤ) : ℚ) / 120 := by
      have : ((t1 - stB.last_green_end : ℤ) : ℚ) ≤ ((t2 - stB.last_green_end : ℤ) : ℚ) := by
        push_cast
        linarith [show (t1 : ℚ) ≤ (t2 : ℚ) by exact_mod_cast h.le]
      linarith
    have hmin := min_le_min hd (le_refl (1 : ℚ))
    linarith [hmin]
  · simp only [Queue.get_priority]
    apply max_le_max _ le_rfl
    have hd : ((t1 - stQ.last_green_end : ℤ) : ℚ) / 60 ≤
        ((t2 - stQ.last_green_end : ℤ) : ℚ) / 60 := by
      have : ((t1 - stQ.last_green_end : ℤ) : ℚ) ≤ ((t2 - stQ.last_green_end : ℤ) : ℚ) := by
        push_cast
        linarith [show (t1 : ℚ) ≤ (t2 : ℚ) by exact_mod_cast h.le]
      linarith
    have hmin := min_le_min hd (le_refl (2 : ℚ))
    linarith [hmin]

/-- Witness for C7 at a concrete input: the binary and queue scores of the
freshly initialised approach do not decrease from tick 0 to tick 5. -/
theorem starvation_monotonicity_witness :
    Binary.get_priority (initInter (⟨⟨0, false⟩, ⟨0, false⟩⟩ : BinDet)) 0 ≤
      Binary.get_priority (initInter (⟨⟨0, false⟩, ⟨0, false⟩⟩ : BinDet)) 5 ∧
    Queue.get_priority (initInter (⟨0, 0, 0, 0⟩ : QDet)) 0 ≤
      Queue.get_priority (initInter (⟨0, 0, 0, 0⟩ : QDet)) 5 :=
  starvation_monotonicity _ _ 0 5 (by norm_num)

/-! # C5 — winner selection -/

/-- C5.  Winner selection is total and deterministic: scanning the three
approaches in index order with a strict `>` against an initial best of
−1.0, any priority vector respecting the 0.1 floor selects some winner
(the `winner = -1`, i.e. `none`, branch is unreachable), the reported top
priority is the winner's score, the winner's score is maximal, and on a
tie at the maximum the lowest-indexed approach wins. -/
theorem winner_selection_total (p : Fin 3 → ℚ) (hfloor : ∀ i, 1/10 ≤ p i) :
    ∃ w : Fin 3, (selectWinner p).1 = some w ∧ (selectWinner p).2 = p w ∧
      (∀ j, p j ≤ p w) ∧ (∀ j, p j = p w → w ≤ j) := by
  have h0 : (-1 : ℚ) < p 0 := lt_of_lt_of_le (by norm_num) (hfloor 0)
  by_cases h1 : p 0 < p 1
  · by_cases h2 : p 1 < p 2
    · refine ⟨2, ?_, ?_, ?_, ?_⟩
      · simp [selectWinner, selStep, h0, h1, h2]
      · simp [selectWinner, selStep, h0, h1, h2]
      · intro j; fin_cases j <;> simp <;> linarith
      · intro j hj; fin_cases j
        · exfalso; simp at hj; linarith
        · exfalso; simp at hj; linarith
        · exact le_refl _
    · refine ⟨1, ?_, ?_, ?_, ?_⟩
      · simp [selectWinner, selStep, h0, h1, h2]
      · simp [selectWinner, selStep, h0, h1, h2]
      · intro j; fin_cases j <;> simp <;> linarith [not_lt.mp h2]
      · intro j hj; fin_cases j
        · exfalso; simp at hj; linarith
        · exact le_refl _
        · decide
  · by_cases h2 : p 0 < p 2
    · refine ⟨2, ?_, ?_, ?_, ?_⟩
      · simp [selectWinner, selStep, h0, h1, h2]
      · simp [selectWinner, selStep, h0, h1, h2]
      · intro j; fin_cases j <;> simp <;> linarith [not_lt.mp h1]
      · intro j hj; fin_cases j
        · exfalso; simp at hj; linarith
        · exfalso; simp at hj; linarith [not_lt.mp h1]
        · exact le_refl _
    · refine ⟨0, ?_, ?_, ?_, ?_⟩
      · simp [selectWinner, selStep, h0, h1, h2]
      · simp [selectWinner, selStep, h0, h1, h2]
      · intro j; fin_cases j <;> simp <;> linarith [not_lt.mp h1, not_lt.mp h2]
      · intro j hj; fin_cases j
        · exact le_refl _
        · decide
        · decide

/-- Witness for C5 at a concrete input: on the all-tied floor vector
(every approach scoring exactly 0.1) a winner exists — and by the theorem
it is the lowest index. -/
theorem winner_selection_total_witness :
    ∃ w : Fin 3, (selectWinner fun _ => (1 : ℚ)/10).1 = some w ∧
      (selectWinner fun _ => (1 : ℚ)/10).2 = 1/10 ∧
      (∀ _ : Fin 3, (1 : ℚ)/10 ≤ 1/10) ∧
      (∀ j : Fin 3, (1 : ℚ)/10 = 1/10 → w ≤ j) :=
  winner_selection_total (fun _ => 1/10) (fun _ => le_refl _)

end Traffic

namespace Traffic

variable {δ : Type}

/-! # Branch equations for the shared state machine -/

theorem runStepCore_gap_wait (score : InterState δ → ℤ → ℚ) (plan : ℚ → ℚ)
    (step : ℤ) (s : CtrlState δ) (h1 : s.is_all_red = true)
    (h2 : ¬ ALL_RED_TIME ≤ ((step - s.all_red_start : ℤ) : ℚ)) :
    runStepCore score plan step s = s := by
  unfold runStepCore
  rw [h1, if_pos (rfl : (true : Bool) = true), if_neg h2]

theorem runStepCore_gap_none (score : InterState δ → ℤ → ℚ) (plan : ℚ → ℚ)
    (step : ℤ) (s : CtrlState δ) (h1 : s.is_all_red = true)
    (h2 : ALL_RED_TIME ≤ ((step - s.all_red_start : ℤ) : ℚ))
    (h3 : (selectWinner fun i => score (s.inters i) step).1 = none) :
    runStepCore score plan step s =
      { s with is_all_red := false
               inters := fun i => { s.inters i with current_light := Light.RED } } := by
  unfold runStepCore
  rw [h3, h1, if_pos (rfl : (true : Bool) = true), if_pos h2]

theorem runStepCore_gap_winner (score : InterState δ → ℤ → ℚ) (plan : ℚ → ℚ)
    (step : ℤ) (s : CtrlState δ) (h1 : s.is_all_red = true)
    (h2 : ALL_RED_TIME ≤ ((step - s.all_red_start : ℤ) : ℚ)) (w : Fin 3)
    (h3 : (selectWinner fun i => score (s.inters i) step).1 = some w) :
    runStepCore score plan step s =
      { s with is_all_red := false
               active_idx := some w
               inters := fun i =>
                 if i = w then
                   { s.inters i with
                       current_light := Light.GREEN
                       state_start := step
                       planned_duration :=
                         plan (score { s.inters i with
                                         state_start := step
                                         consecutive_greens :=
                                           (s.inters i).consecutive_greens + 1 } step)
                       consecutive_greens := (s.inters i).consecutive_greens + 1 }
                 else { s.inters i with current_light := Light.RED
                                        consecutive_greens := 0 } } := by
  unfold runStepCore
  rw [h3, h1, if_pos (rfl : (true : Bool) = true), if_pos h2]

theorem runStepCore_active_none (score : InterState δ → ℤ → ℚ) (plan : ℚ → ℚ)
    (step : ℤ) (s : CtrlState δ) (h1 : s.is_all_red = false)
    (h2 : s.active_idx = none) :
    runStepCore score plan step s = { s with is_all_red := true, all_red_start := step } := by
  unfold runStepCore
  rw [h2, h1, if_neg Bool.false_ne_true]

theorem runStepCore_green_advance (score : InterState δ → ℤ → ℚ) (plan : ℚ → ℚ)
    (step : ℤ) (s : CtrlState δ) (a : Fin 3) (h1 : s.is_all_red = false)
    (h2 : s.active_idx = some a) (h3 : (s.inters a).current_light = Light.GREEN)
    (h4 : (s.inters a).planned_duration ≤ ((step - (s.inters a).state_start : ℤ) : ℚ)) :
    runStepCore score plan step s =
      { s with inters := fun i =>
          if i = a then { s.inters a with current_light := Light.YELLOW
                                          state_start := step }
          else s.inters i } := by
  unfold runStepCore
  rw [h2, h1, if_neg Bool.false_ne_true]
  dsimp only
  rw [h3, if_pos (rfl : Light.GREEN = Light.GREEN), if_pos h4]

theorem runStepCore_green_hold (score : InterState δ → ℤ → ℚ) (plan : ℚ → ℚ)
    (step : ℤ) (s : CtrlState δ) (a : Fin 3) (h1 : s.is_all_red = false)
    (h2 : s.active_idx = some a) (h3 : (s.inters a).current_light = Light.GREEN)
    (h4 : ¬ (s.inters a).planned_duration ≤ ((step - (s.inters a).state_start : ℤ) : ℚ)) :
    runStepCore score plan step s = s := by
  unfold runStepCore
  rw [h2, h1, if_neg Bool.false_ne_true]
  dsimp only
  rw [h3, if_pos (rfl : Light.GREEN = Light.GREEN), if_neg h4]

theorem runStepCore_yellow_advance (score : InterState δ → ℤ → ℚ) (plan : ℚ → ℚ)
    (step : ℤ) (s : CtrlState δ) (a : Fin 3) (h1 : s.is_all_red = false)
    (h2 : s.active_idx = some a) (h3 : (s.inters a).current_light = Light.YELLOW)
    (h4 : YELLOW_TIME ≤ ((step - (s.inters a).state_start : ℤ) : ℚ)) :
    runStepCore score plan step s =
      { s with active_idx := none
               is_all_red := true
               all_red_start := step
               cycle_count := s.cycle_count + 1
               inters := fun i =>
                 if i = a then { s.inters a with current_light := Light.RED
                                                 last_green_end := step }
                 else s.inters i } := by
  unfold runStepCore
  rw [h2, h1, if_neg Bool.false_ne_true]
  dsimp only
  rw [h3, if_neg (by decide : ¬ (Light.YELLOW = Light.GREEN)),
      if_pos (rfl : Light.YELLOW = Light.YELLOW), if_pos h4]

theorem runStepCore_yellow_hold (score : InterState δ → ℤ → ℚ) (plan : ℚ → ℚ)
    (step : ℤ) (s : CtrlState δ) (a : Fin 3) (h1 : s.is_all_red = false)
    (h2 : s.active_idx = some a) (h3 : (s.inters a).current_light = Light.YELLOW)
    (h4 : ¬ YELLOW_TIME ≤ ((step - (s.inters a).state_start : ℤ) : ℚ)) :
    runStepCore score plan step s = s := by
  unfold runStepCore
  rw [h2, h1, if_neg Bool.false_ne_true]
  dsimp only
  rw [h3, if_neg (by decide : ¬ (Light.YELLOW = Light.GREEN)),
      if_pos (rfl : Light.YELLOW = Light.YELLOW), if_neg h4]

theorem runStepCore_red_hold (score : InterState δ → ℤ → ℚ) (plan : ℚ → ℚ)
    (step : ℤ) (s : CtrlState δ) (a : Fin 3) (h1 : s.is_all_red = false)
    (h2 : s.active_idx = some a) (h3 : (s.inters a).current_light = Light.RED) :
    runStepCore score plan step s = s := by
  unfold runStepCore
  rw [h2, h1, if_neg Bool.false_ne_true]
  dsimp only
  rw [h3, if_neg (by decide : ¬ (Light.RED = Light.GREEN)),
      if_neg (by decide : ¬ (Light.RED = Light.YELLOW))]

/-! # Preservation of the active-approach invariant -/

theorem runStepCore_activeInv (score : InterState δ → ℤ → ℚ) (plan : ℚ → ℚ)
    (step : ℤ) (s : CtrlState δ) (h : ActiveInv s) :
    ActiveInv (runStepCore score plan step s) := by
  by_cases h1 : s.is_all_red = true
  · by_cases h2 : ALL_RED_TIME ≤ ((step - s.all_red_start : ℤ) : ℚ)
    · rcases h3 : (selectWinner fun i => score (s.inters i) step).1 with _ | w
      · rw [runStepCore_gap_none score plan step s h1 h2 h3]
        intro i _
        simp
      · rw [runStepCore_gap_winner score plan step s h1 h2 w h3]
        intro i hi
        have hiw : i ≠ w := by
          intro he
          exact hi (by rw [he])
        simp [hiw]
    · rw [runStepCore_gap_wait score plan step s h1 h2]
      exact h
  · have h1' : s.is_all_red = false := by simpa using h1
    rcases h2 : s.active_idx with _ | a
    · rw [runStepCore_active_none score plan step s h1' h2]
      intro i hi
      exact h i (by rw [h2]; simp)
    · cases h3 : (s.inters a).current_light with
      | RED =>
        rw [runStepCore_red_hold score plan step s a h1' h2 h3]
        exact h
      | GREEN =>
        by_cases h4 : (s.inters a).planned_duration ≤ ((step - (s.inters a).state_start : ℤ) : ℚ)
        · rw [runStepCore_green_advance score plan step s a h1' h2 h3 h4]
          intro i hi
          have hi' : s.active_idx ≠ some i := hi
          have hia : i ≠ a := by
            intro he
            exact hi' (by rw [h2, he])
          simp only [hia, if_neg, ite_false]
          exact h i hi'
        · rw [runStepCore_green_hold score plan step s a h1' h2 h3 h4]
          exact h
      | YELLOW =>
        by_cases h4 : YELLOW_TIME ≤ ((step - (s.inters a).state_start : ℤ) : ℚ)
        · rw [runStepCore_yellow_advance score plan step s a h1' h2 h3 h4]
          intro i _
          by_cases hia : i = a
          · subst hia
            simp
          · simp only [hia, if_neg, ite_false]
            exact h i (by rw [h2]; intro hc; exact hia (Option.some_inj.mp hc).symm)
        · rw [runStepCore_yellow_hold score plan step s a h1' h2 h3 h4]
          exact h

theorem update_sensors_activeInv (feed : Feed) (step : ℤ) (s : CtrlState BinDet)
    (h : ActiveInv s) : ActiveInv (Binary.update_sensors feed step s) :=
  fun i hi => h i hi

theorem measure_queue_length_activeInv (feed : Feed) (s : CtrlState QDet)
    (h : ActiveInv s) : ActiveInv (Queue.measure_queue_length feed s) :=
  fun i hi => h i hi

theorem binTrace_activeInv (feeds : ℕ → Feed) : ∀ n, ActiveInv (binTrace feeds n)
  | 0 => fun _ _ => rfl
  | n + 1 =>
    runStepCore_activeInv _ _ _ _
      (update_sensors_activeInv _ _ _ (binTrace_activeInv feeds n))

theorem queueTrace_activeInv (feeds : ℕ → Feed) : ∀ n, ActiveInv (queueTrace feeds n)
  | 0 => fun _ _ => rfl
  | n + 1 =>
    runStepCore_activeInv _ _ _ _
      (measure_queue_length_activeInv _ _ (queueTrace_activeInv feeds n))

/-! # C1 — mutual exclusion -/

/-- C1.  Mutual exclusion: starting from the initial all-RED state, after
every tick of either controller variant — winner selection, GREEN/YELLOW
timing and gap handling included, under every possible perception feed —
the set of approaches whose signal is not RED has at most one element,
i.e. at most one approach is GREEN or YELLOW and every other approach
shows RED. -/
theorem mutual_exclusion_invariant :
    ∀ (feedsB feedsQ : ℕ → Feed) (n : ℕ),
      (Finset.univ.filter fun i : Fin 3 =>
          ((binTrace feedsB n).inters i).current_light ≠ Light.RED).card ≤ 1 ∧
      (Finset.univ.filter fun i : Fin 3 =>
          ((queueTrace feedsQ n).inters i).current_light ≠ Light.RED).card ≤ 1 := by
  intro feedsB feedsQ n
  constructor
  · rw [Finset.card_le_one]
    intro a ha b hb
    simp only [Finset.mem_filter] at ha hb
    have hInv := binTrace_activeInv feedsB n
    have haa : (binTrace feedsB n).active_idx = some a := by
      by_contra hc
      exact ha.2 (hInv a hc)
    have hbb : (binTrace feedsB n).active_idx = some b := by
      by_contra hc
      exact hb.2 (hInv b hc)
    rw [haa] at hbb
    exact Option.some_inj.mp hbb
  · rw [Finset.card_le_one]
    intro a ha b hb
    simp only [Finset.mem_filter] at ha hb
    have hInv := queueTrace_activeInv feedsQ n
    have haa : (queueTrace feedsQ n).active_idx = some a := by
      by_contra hc
      exact ha.2 (hInv a hc)
    have hbb : (queueTrace feedsQ n).active_idx = some b := by
      by_contra hc
      exact hb.2 (hInv b hc)
    rw [haa] at hbb
    exact Option.some_inj.mp hbb

end Traffic

namespace Traffic

variable {δ : Type}

/-! # Field-preservation facts about the state machine -/

theorem runStepCore_planned (score : InterState δ → ℤ → ℚ) (plan : ℚ → ℚ)
    (step : ℤ) (s : CtrlState δ) (h1 : s.is_all_red = false) (i : Fin 3) :
    ((runStepCore score plan step s).inters i).planned_duration =
      (s.inters i).planned_duration := by
  rcases h2 : s.active_idx with _ | a
  · rw [runStepCore_active_none score plan step s h1 h2]
  · cases h3 : (s.inters a).current_light with
    | RED => rw [runStepCore_red_hold score plan step s a h1 h2 h3]
    | GREEN =>
      by_cases h4 : (s.inters a).planned_duration ≤ ((step - (s.inters a).state_start : ℤ) : ℚ)
      · rw [runStepCore_green_advance score plan step s a h1 h2 h3 h4]
        by_cases hia : i = a
        · subst hia; dsimp only; rw [if_pos rfl]
        · dsimp only; rw [if_neg hia]
      · rw [runStepCore_green_hold score plan step s a h1 h2 h3 h4]
    | YELLOW =>
      by_cases h4 : YELLOW_TIME ≤ ((step - (s.inters a).state_start : ℤ) : ℚ)
      · rw [runStepCore_yellow_advance score plan step s a h1 h2 h3 h4]
        by_cases hia : i = a
        · subst hia; dsimp only; rw [if_pos rfl]
        · dsimp only; rw [if_neg hia]
      · rw [runStepCore_yellow_hold score plan step s a h1 h2 h3 h4]

theorem runStepCore_det (score : InterState δ → ℤ → ℚ) (plan : ℚ → ℚ)
    (step : ℤ) (s : CtrlState δ) (i : Fin 3) :
    ((runStepCore score plan step s).inters i).det = (s.inters i).det := by
  by_cases h1 : s.is_all_red = true
  · by_cases h2 : ALL_RED_TIME ≤ ((step - s.all_red_start : ℤ) : ℚ)
    · rcases h3 : (selectWinner fun k => score (s.inters k) step).1 with _ | w
      · rw [runStepCore_gap_none score plan step s h1 h2 h3]
      · rw [runStepCore_gap_winner score plan step s h1 h2 w h3]
        by_cases hiw : i = w
        · subst hiw; dsimp only; rw [if_pos rfl]
        · dsimp only; rw [if_neg hiw]
    · rw [runStepCore_gap_wait score plan step s h1 h2]
  · have h1' : s.is_all_red = false := by simpa using h1
    rcases h2 : s.active_idx with _ | a
    · rw [runStepCore_active_none score plan step s h1' h2]
    · cases h3 : (s.inters a).current_light with
      | RED => rw [runStepCore_red_hold score plan step s a h1' h2 h3]
      | GREEN =>
        by_cases h4 : (s.inters a).planned_duration ≤ ((step - (s.inters a).state_start : ℤ) : ℚ)
        · rw [runStepCore_green_advance score plan step s a h1' h2 h3 h4]
          by_cases hia : i = a
          · subst hia; dsimp only; rw [if_pos rfl]
          · dsimp only; rw [if_neg hia]
        · rw [runStepCore_green_hold score plan step s a h1' h2 h3 h4]
      | YELLOW =>
        by_cases h4 : YELLOW_TIME ≤ ((step - (s.inters a).state_start : ℤ) : ℚ)
        · rw [runStepCore_yellow_advance score plan step s a h1' h2 h3 h4]
          by_cases hia : i = a
          · subst hia; dsimp only; rw [if_pos rfl]
          · dsimp only; rw [if_neg hia]
        · rw [runStepCore_yellow_hold score plan step s a h1' h2 h3 h4]

/-! # C3 — green-time allocation and freezing -/

/-- C3.  Green-time allocation: whenever a winner `w` is selected at the
end of an all-red gap (the gap flag is set, `ALL_RED_TIME` has elapsed and
the winner search over the freshly sensed state returns `w`), the
`planned_duration` committed for `w` by that tick lies within
`[G_MIN, G_MAX]` inclusive — in both variants; and once set it is frozen:
on every tick taken outside the all-red gap (in particular on every later
tick of the GREEN phase), no approach's `planned_duration` changes,
whatever the detection inputs of that tick are. -/
theorem green_time_allocation :
    ∀ (feed : Feed) (step : ℤ) (sB : CtrlState BinDet) (sQ : CtrlState QDet) (i w : Fin 3),
      (sB.is_all_red = false →
        ((Binary.run_step feed step sB).inters i).planned_duration =
          (sB.inters i).planned_duration) ∧
      (sQ.is_all_red = false →
        ((Queue.run_step feed step sQ).inters i).planned_duration =
          (sQ.inters i).planned_duration) ∧
      (sB.is_all_red = true →
        ALL_RED_TIME ≤ ((step - sB.all_red_start : ℤ) : ℚ) →
        (selectWinner fun k =>
            Binary.get_priority ((Binary.update_sensors feed step sB).inters k) step).1 = some w →
        G_MIN ≤ ((Binary.run_step feed step sB).inters w).planned_duration ∧
          ((Binary.run_step feed step sB).inters w).planned_duration ≤ G_MAX) ∧
      (sQ.is_all_red = true →
        ALL_RED_TIME ≤ ((step - sQ.all_red_start : ℤ) : ℚ) →
        (selectWinner fun k =>
            Queue.get_priority ((Queue.measure_queue_length feed sQ).inters k) step).1 = some w →
        G_MIN ≤ ((Queue.run_step feed step sQ).inters w).planned_duration ∧
          ((Queue.run_step feed step sQ).inters w).planned_duration ≤ G_MAX) := by
  intro feed step sB sQ i w
  refine ⟨?_, ?_, ?_, ?_⟩
  · intro h1
    exact runStepCore_planned Binary.get_priority Binary.plan_green step
      (Binary.update_sensors feed step sB) h1 i
  · intro h1
    exact runStepCore_planned Queue.get_priority (Queue.calculate_green_time G_MIN G_MAX) step
      (Queue.measure_queue_length feed sQ) h1 i
  · intro h1 h2 hsel
    have heq := runStepCore_gap_winner Binary.get_priority Binary.plan_green step
      (Binary.update_sensors feed step sB) h1 h2 w hsel
    unfold Binary.run_step
    rw [heq]
    dsimp only
    rw [if_pos rfl]
    exact plan_green_range _
  · intro h1 h2 hsel
    have heq := runStepCore_gap_winner Queue.get_priority (Queue.calculate_green_time G_MIN G_MAX)
      step (Queue.measure_queue_length feed sQ) h1 h2 w hsel
    unfold Queue.run_step
    rw [heq]
    dsimp only
    rw [if_pos rfl]
    exact calculate_green_time_range _

end Traffic

namespace Traffic

/-- On a constant priority vector above the initial best of −1, the winner
search returns the first index. -/
theorem selectWinner_const (c : ℚ) (hc : (-1 : ℚ) < c) :
    (selectWinner fun _ => c).1 = some 0 := by
  unfold selectWinner selStep
  dsimp only
  rw [if_pos hc]
  dsimp only
  rw [if_neg (lt_irrefl c)]
  dsimp only
  rw [if_neg (lt_irrefl c)]

/-- Witness for C3 at concrete inputs.  With the gap flag cleared, one tick
of either variant leaves `planned_duration` unchanged; and at tick 1 from
the initial state (all-red gap elapsed, all approaches idle, empty feed)
the committed green time of the selected winner (approach 0) lies within
`[G_MIN, G_MAX]`. -/
theorem green_time_allocation_witness :
    (((Binary.run_step (fun _ => none) 1 { initBin with is_all_red := false }).inters 0).planned_duration
        = (({ initBin with is_all_red := false } : CtrlState BinDet).inters 0).planned_duration) ∧
    (((Queue.run_step (fun _ => none) 1 { initQueue with is_all_red := false }).inters 0).planned_duration
        = (({ initQueue with is_all_red := false } : CtrlState QDet).inters 0).planned_duration) ∧
    (G_MIN ≤ ((Binary.run_step (fun _ => none) 1 initBin).inters 0).planned_duration ∧
      ((Binary.run_step (fun _ => none) 1 initBin).inters 0).planned_duration ≤ G_MAX) ∧
    (G_MIN ≤ ((Queue.run_step (fun _ => none) 1 initQueue).inters 0).planned_duration ∧
      ((Queue.run_step (fun _ => none) 1 initQueue).inters 0).planned_duration ≤ G_MAX) := by
  have hFrozen := green_time_allocation (fun _ => none) 1
    { initBin with is_all_red := false } { initQueue with is_all_red := false } 0 0
  have hCommit := green_time_allocation (fun _ => none) 1 initBin initQueue 0 0
  refine ⟨hFrozen.1 rfl, hFrozen.2.1 rfl, ?_, ?_⟩
  · apply hCommit.2.2.1 rfl (by norm_num [ALL_RED_TIME, initBin, initCtrl])
    have hconstB : (fun k : Fin 3 =>
          Binary.get_priority ((Binary.update_sensors (fun _ => none) 1 initBin).inters k) 1)
        = fun _ : Fin 3 => Binary.get_priority (initInter ⟨⟨0, false⟩, ⟨0, false⟩⟩) 1 := rfl
    rw [hconstB]
    apply selectWinner_const
    have hge : (1 : ℚ)/10 ≤ Binary.get_priority (initInter ⟨⟨0, false⟩, ⟨0, false⟩⟩) 1 := by
      simp only [Binary.get_priority]
      exact le_max_right _ _
    linarith
  · apply hCommit.2.2.2 rfl (by norm_num [ALL_RED_TIME, initQueue, initCtrl])
    have hconstQ : (fun k : Fin 3 =>
          Queue.get_priority ((Queue.measure_queue_length (fun _ => none) initQueue).inters k) 1)
        = fun _ : Fin 3 => Queue.get_priority (initInter ⟨0, 0, 0, 0⟩) 1 := rfl
    rw [hconstQ]
    apply selectWinner_const
    have hge : (1 : ℚ)/10 ≤ Queue.get_priority (initInter ⟨0, 0, 0, 0⟩) 1 := by
      simp only [Queue.get_priority]
      exact le_max_right _ _
    linarith

end Traffic

namespace Traffic

/-! # C4 — debounce behaviour of the binary sensors -/

theorem debounceTrueRun_pos (s : ℤ) (hs : 1 ≤ s) :
    ∀ k : ℕ, (debounceTrueRun s k).detect_time = s ∧
      (debounceTrueRun s k).occupied = decide (SENSOR_DELAY ≤ (k : ℤ)) := by
  intro k
  induction k with
  | zero =>
    constructor <;> simp [debounceTrueRun, debounceStep, SENSOR_DELAY]
  | succ k ih =>
    have hdt := ih.1
    constructor
    · simp only [debounceTrueRun]
      unfold debounceStep
      rw [if_pos (rfl : (true : Bool) = true)]
      dsimp only
      rw [hdt, if_neg (show ¬ s = 0 by omega)]
      by_cases hC : SENSOR_DELAY ≤ s + ((k + 1 : ℕ) : ℤ) - s
      · rw [if_pos hC]
      · rw [if_neg hC]
    · simp only [debounceTrueRun]
      unfold debounceStep
      rw [if_pos (rfl : (true : Bool) = true)]
      dsimp only
      rw [hdt, if_neg (show ¬ s = 0 by omega)]
      by_cases hC : SENSOR_DELAY ≤ s + ((k + 1 : ℕ) : ℤ) - s
      · rw [if_pos hC]
        show true = decide (SENSOR_DELAY ≤ ((k + 1 : ℕ) : ℤ))
        rw [eq_comm, decide_eq_true_eq]
        simp only [SENSOR_DELAY] at hC ⊢
        omega
      · rw [if_neg hC]
        show false = decide (SENSOR_DELAY ≤ ((k + 1 : ℕ) : ℤ))
        rw [eq_comm, decide_eq_false_iff_not]
        simp only [SENSOR_DELAY] at hC ⊢
        omega

theorem debounceTrueRun_zero :
    ∀ k : ℕ, (debounceTrueRun 0 k).detect_time = min (k : ℤ) 1 ∧
      (debounceTrueRun 0 k).occupied = decide (SENSOR_DELAY + 1 ≤ (k : ℤ)) := by
  intro k
  induction k with
  | zero => constructor <;> decide
  | succ k ih =>
    by_cases hk : k = 0
    · subst hk
      constructor <;> decide
    · have hdt : (debounceTrueRun 0 k).detect_time = 1 := by
        rw [ih.1, min_eq_right (by omega : (1 : ℤ) ≤ (k : ℤ))]
      constructor
      · simp only [debounceTrueRun]
        unfold debounceStep
        rw [if_pos (rfl : (true : Bool) = true)]
        dsimp only
        rw [hdt, if_neg (show ¬ (1 : ℤ) = 0 by omega)]
        have hmin : min ((k + 1 : ℕ) : ℤ) 1 = 1 :=
          min_eq_right (by omega : (1 : ℤ) ≤ ((k + 1 : ℕ) : ℤ))
        rw [hmin]
        by_cases hC : SENSOR_DELAY ≤ 0 + ((k + 1 : ℕ) : ℤ) - 1
        · rw [if_pos hC]
        · rw [if_neg hC]
      · simp only [debounceTrueRun]
        unfold debounceStep
        rw [if_pos (rfl : (true : Bool) = true)]
        dsimp only
        rw [hdt, if_neg (show ¬ (1 : ℤ) = 0 by omega)]
        by_cases hC : SENSOR_DELAY ≤ 0 + ((k + 1 : ℕ) : ℤ) - 1
        · rw [if_pos hC]
          show true = decide (SENSOR_DELAY + 1 ≤ ((k + 1 : ℕ) : ℤ))
          rw [eq_comm, decide_eq_true_eq]
          simp only [SENSOR_DELAY] at hC ⊢
          omega
        · rw [if_neg hC]
          show false = decide (SENSOR_DELAY + 1 ≤ ((k + 1 : ℕ) : ℤ))
          rw [eq_comm, decide_eq_false_iff_not]
          simp only [SENSOR_DELAY] at hC ⊢
          omega

/-- C4 counterexample.  The claim says a candidate continuously true for
`persistence_window` (= `SENSOR_DELAY` = 10) ticks sets the occupancy flag
on the tick it reaches the threshold.  Concretely it fails on both
readings of "lasting N ticks": a candidate true at ticks 1,2,…,10 (ten
consecutive true ticks) leaves the flag false, and a candidate true at
ticks 0,1,…,10 (ten elapsed ticks since its onset at tick 0) also leaves
the flag false, because the code latches the onset in a timer whose value
0 doubles as "unset", so an onset at tick 0 is re-latched at tick 1. -/
theorem debounce_window_counterexample :
    SENSOR_DELAY = 10 ∧
    (debounceTrueRun 1 9).occupied = false ∧
    (debounceTrueRun 0 10).occupied = false :=
  ⟨rfl, by decide, by decide⟩

/-- C4 (amended).  Debounce characterisation: for a candidate continuously
true since an onset tick `s ≥ 1`, after the tick `s + k` the timer origin
is `s` and the flag is set exactly when `k ≥ SENSOR_DELAY` — so a run of
`SENSOR_DELAY` consecutive true ticks (`k = SENSOR_DELAY - 1`) never sets
the flag, and the flag first sets on the `(SENSOR_DELAY + 1)`-th
consecutive true tick, when the elapsed time since onset reaches the
window.  For an onset at tick 0 the origin is re-latched at tick 1 and the
flag first sets when `k ≥ SENSOR_DELAY + 1`.  A single false tick resets
the flag and the timer to zero. -/
theorem debounce_characterization (s : ℤ) (k : ℕ) (hs : 1 ≤ s) :
    ((debounceTrueRun s k).detect_time = s ∧
      (debounceTrueRun s k).occupied = decide (SENSOR_DELAY ≤ (k : ℤ))) ∧
    ((debounceTrueRun 0 k).occupied = decide (SENSOR_DELAY + 1 ≤ (k : ℤ))) ∧
    (∀ (t : ℤ) (st : SensorSt), debounceStep false t st = ⟨0, false⟩) :=
  ⟨debounceTrueRun_pos s hs k, (debounceTrueRun_zero k).2, fun _ _ => rfl⟩

/-- Witness for C4's amended theorem at `s = 1`, `k = 10`: after eleven
consecutive true ticks 1,…,11 the flag is set (`decide (10 ≤ 10) = true`),
while the zero-onset run is still unset at `k = 10`. -/
theorem debounce_characterization_witness :
    ((debounceTrueRun 1 10).detect_time = 1 ∧
      (debounceTrueRun 1 10).occupied = decide (SENSOR_DELAY ≤ ((10 : ℕ) : ℤ))) ∧
    ((debounceTrueRun 0 10).occupied = decide (SENSOR_DELAY + 1 ≤ ((10 : ℕ) : ℤ))) ∧
    (∀ (t : ℤ) (st : SensorSt), debounceStep false t st = ⟨0, false⟩) :=
  debounce_characterization 1 10 (by norm_num)

end Traffic

namespace Traffic

/-! # C6 — queue-length zone counting -/

theorem countZones_eq_countP (vs : List (Option Vehicle)) :
    countZones vs = (vs.countP qNearPred, vs.countP qMediumPred, vs.countP qFarPred) := by
  induction vs with
  | nil => rfl
  | cons ov rest ih =>
    cases ov with
    | none =>
      simp [countZones, List.countP_cons, qNearPred, qMediumPred, qFarPred, ih]
    | some v =>
      by_cases h2 : v.speed < 2
      · by_cases hn : v.dist ≤ ZONE_NEAR
        · have hmn : ¬ ZONE_MEDIUM < v.dist :=
            not_lt.mpr (hn.trans (by norm_num [ZONE_NEAR, ZONE_MEDIUM]))
          simp [countZones, List.countP_cons, qNearPred, qMediumPred, qFarPred,
            h2, hn, not_lt.mpr hn, hmn, ih]
        · by_cases hm : v.dist ≤ ZONE_MEDIUM
          · simp [countZones, List.countP_cons, qNearPred, qMediumPred, qFarPred,
              h2, hn, not_le.mp hn, hm, not_lt.mpr hm, ih]
          · by_cases hf : v.dist ≤ ZONE_FAR
            · have hlt : ZONE_MEDIUM < v.dist := not_le.mp hm
              have hnlt : ¬ ZONE_NEAR < v.dist → False := by
                intro hc
                exact hc (by simp only [ZONE_NEAR, ZONE_MEDIUM] at *; linarith)
              simp [countZones, List.countP_cons, qNearPred, qMediumPred, qFarPred,
                h2, hn, hm, hf, hlt, ih]
            · simp [countZones, List.countP_cons, qNearPred, qMediumPred, qFarPred,
                h2, hn, hm, hf, ih]
      · simp [countZones, List.countP_cons, qNearPred, qMediumPred, qFarPred, h2, ih]

/-- C6 counterexample.  The claim says every vehicle slower than the
2.0 m/s threshold is counted into exactly one of the three zone buckets;
but a queued vehicle 150 m from the stop line (slower than the threshold)
falls off the end of the `if`/`elif` chain — all three buckets stay 0, so
it is counted into no bucket at all. -/
theorem zone_counting_counterexample :
    ((Vehicle.mk 150 0).speed < 2 ∧ ZONE_FAR < (Vehicle.mk 150 0).dist) ∧
    countZones [some (Vehicle.mk 150 0)] = (0, 0, 0) := by
  refine ⟨⟨by norm_num, by norm_num [ZONE_FAR]⟩, ?_⟩
  norm_num [countZones, ZONE_NEAR, ZONE_MEDIUM, ZONE_FAR]

/-- C6 (amended).  Zone counting: the per-tick counts are exactly the
`countP` of the three mutually-exclusive zone predicates over the feed's
readable vehicles; every vehicle slower than the 2.0 m/s threshold *and
within `ZONE_FAR` (100 m)* is counted into exactly one bucket; a
slower-than-threshold vehicle beyond `ZONE_FAR` is counted into no bucket;
and the counts written into the approach state depend only on the current
tick's feed — they replace the previous tick's counts entirely. -/
theorem zone_counting_characterization :
    ∀ (vs : List (Option Vehicle)) (v : Vehicle) (feed : Feed) (i : Fin 3)
      (s1 s2 : CtrlState QDet),
      countZones vs = (vs.countP qNearPred, vs.countP qMediumPred, vs.countP qFarPred) ∧
      (v.speed < 2 → v.dist ≤ ZONE_FAR →
        (countZones [some v]).1 + (countZones [some v]).2.1 + (countZones [some v]).2.2 = 1) ∧
      (v.speed < 2 → ZONE_FAR < v.dist → countZones [some v] = (0, 0, 0)) ∧
      ((Queue.measure_queue_length feed s1).inters i).det =
        ((Queue.measure_queue_length feed s2).inters i).det := by
  intro vs v feed i s1 s2
  refine ⟨countZones_eq_countP vs, ?_, ?_, rfl⟩
  · intro hspeed hdist
    by_cases hn : v.dist ≤ ZONE_NEAR
    · simp [countZones, hspeed, hn]
    · by_cases hm : v.dist ≤ ZONE_MEDIUM
      · simp [countZones, hspeed, hn, hm]
      · simp [countZones, hspeed, hn, hm, hdist]
  · intro hspeed hdist
    have h1 : ¬ v.dist ≤ ZONE_NEAR := by
      simp only [ZONE_NEAR, ZONE_FAR] at *
      linarith
    have h2 : ¬ v.dist ≤ ZONE_MEDIUM := by
      simp only [ZONE_MEDIUM, ZONE_FAR] at *
      linarith
    have h3 : ¬ v.dist ≤ ZONE_FAR := not_le.mpr hdist
    simp [countZones, hspeed, h1, h2, h3]

/-- Witness for C6's amended theorem at concrete inputs: a queued vehicle
30 m out lands in exactly one bucket (the medium one), the one at 150 m in
none, and re-measuring over two different previous controller states
yields the same detection record. -/
theorem zone_counting_characterization_witness :
    countZones [] = (List.countP qNearPred [], List.countP qMediumPred [], List.countP qFarPred []) ∧
    ((countZones [some (Vehicle.mk 30 1)]).1 + (countZones [some (Vehicle.mk 30 1)]).2.1 +
        (countZones [some (Vehicle.mk 30 1)]).2.2 = 1) ∧
    countZones [some (Vehicle.mk 150 0)] = (0, 0, 0) ∧
    ((Queue.measure_queue_length (fun _ => none) initQueue).inters 0).det =
      ((Queue.measure_queue_length (fun _ => none)
          { initQueue with cycle_count := 5 }).inters 0).det := by
  have hA := zone_counting_characterization [] (Vehicle.mk 30 1) (fun _ => none) 0
    initQueue { initQueue with cycle_count := 5 }
  have hB := zone_counting_characterization [] (Vehicle.mk 150 0) (fun _ => none) 0
    initQueue { initQueue with cycle_count := 5 }
  exact ⟨hA.1, hA.2.1 (by norm_num) (by norm_num [ZONE_FAR]),
    hB.2.2.1 (by norm_num) (by norm_num [ZONE_FAR]), hA.2.2.2⟩

end Traffic

namespace Traffic

/-! # C9 — configuration validation -/

/-- C9 counterexample.  The claim says an invalid configuration (for
example `G_MIN > G_MAX`) is detected at controller construction and
rejected before the run starts.  In the code no such check exists anywhere
— `SimulationController.__init__` only initialises state and reads no
configuration constant — and the green-time computation happily runs with
the invalid values: with `gmin = 40 > gmax = 10` it returns 10 for every
priority (the clamp silently degenerates to `gmax`) instead of failing. -/
theorem config_validation_counterexample :
    ((10 : ℚ) < 40) ∧
    Queue.calculate_green_time 40 10 0 = 10 ∧
    Queue.calculate_green_time 40 10 100 = 10 := by
  refine ⟨by norm_num, ?_, ?_⟩
  · unfold Queue.calculate_green_time
    rw [show (40 : ℚ) + 0 * (3/2) = 40 from by norm_num, max_self,
        min_eq_right (by norm_num : (10 : ℚ) ≤ 40)]
    exact_mod_cast pyRound1_intCast 10
  · unfold Queue.calculate_green_time
    rw [show (40 : ℚ) + 100 * (3/2) = 190 from by norm_num,
        max_eq_left (by norm_num : (40 : ℚ) ≤ 190),
        min_eq_right (by norm_num : (10 : ℚ) ≤ 190)]
    exact_mod_cast pyRound1_intCast 10

/-- C9 (amended).  No configuration validation is performed: construction
(`initCtrl`, the embedding of `__init__`) is unconditional and reads no
configuration constant, and a run with an inverted range `gmax ≤ gmin`
simply proceeds, every green-time allocation degenerating to the rounding
of `gmax` — the invalid values are used, not rejected. -/
theorem config_no_validation (gmin gmax p : ℚ) (h : gmax ≤ gmin) :
    Queue.calculate_green_time gmin gmax p = pyRound1 gmax := by
  unfold Queue.calculate_green_time
  rw [min_eq_right (h.trans (le_max_right _ _))]

/-- Witness for C9's amended theorem: with `gmin = 40`, `gmax = 10` and
priority 7 the computation returns the rounding of the (smaller) `gmax`. -/
theorem config_no_validation_witness :
    Queue.calculate_green_time 40 10 7 = pyRound1 10 :=
  config_no_validation 40 10 7 (by norm_num)

/-! # C8 — fail-open sensing -/

theorem update_sensors_fail_open (feed : Feed) (step : ℤ) (s : CtrlState BinDet)
    (i : Fin 3) (h : feed i = none) :
    Binary.update_sensors feed step s =
      Binary.update_sensors (Function.update feed i (some [])) step s := by
  unfold Binary.update_sensors
  congr 1
  funext k
  by_cases hk : k = i
  · subst hk
    rw [h, Function.update_same]
    rfl
  · rw [Function.update_noteq hk]

theorem measure_queue_length_fail_open (feed : Feed) (s : CtrlState QDet)
    (i : Fin 3) (h : feed i = none) :
    Queue.measure_queue_length feed s =
      Queue.measure_queue_length (Function.update feed i (some [])) s := by
  unfold Queue.measure_queue_length
  congr 1
  funext k
  by_cases hk : k = i
  · subst hk
    rw [h, Function.update_same]
    rfl
  · rw [Function.update_noteq hk]

theorem nearDetectedNow_skip (vs1 vs2 : List (Option Vehicle)) :
    nearDetectedNow (vs1 ++ none :: vs2) = nearDetectedNow (vs1 ++ vs2) := by
  simp [nearDetectedNow, List.any_append, List.any_cons, vehNear]

theorem farDetectedNow_skip (vs1 vs2 : List (Option Vehicle)) :
    farDetectedNow (vs1 ++ none :: vs2) = farDetectedNow (vs1 ++ vs2) := by
  simp [farDetectedNow, List.any_append, List.any_cons, vehFar]

theorem countZones_skip (vs1 vs2 : List (Option Vehicle)) :
    countZones (vs1 ++ none :: vs2) = countZones (vs1 ++ vs2) := by
  induction vs1 with
  | nil => simp [countZones]
  | cons a t ih => cases a <;> simp [countZones, ih]

/-- C8.  Fail-open sensing: a raising vehicle-list query for one approach
(`feed i = none`) makes the whole tick behave exactly as if that approach
reported an empty vehicle list — no exception escapes into the rest of the
tick, phase transitions included; each approach's sensing depends only on
its own feed entry, so a failure at one approach cannot change another
approach's detection state; and a raising per-vehicle query (a `none`
entry inside a list) contributes nothing to either variant's detection. -/
theorem fail_open_sensing :
    ∀ (feed feed2 : Feed) (step : ℤ) (sB : CtrlState BinDet) (sQ : CtrlState QDet)
      (i j : Fin 3) (vs1 vs2 : List (Option Vehicle)) (dB : BinDet),
      (feed i = none →
        Binary.run_step feed step sB =
          Binary.run_step (Function.update feed i (some [])) step sB) ∧
      (feed i = none →
        Queue.run_step feed step sQ =
          Queue.run_step (Function.update feed i (some [])) step sQ) ∧
      (feed j = feed2 j →
        (Binary.update_sensors feed step sB).inters j =
          (Binary.update_sensors feed2 step sB).inters j) ∧
      (feed j = feed2 j →
        (Queue.measure_queue_length feed sQ).inters j =
          (Queue.measure_queue_length feed2 sQ).inters j) ∧
      senseBinApproach (vs1 ++ none :: vs2) step dB = senseBinApproach (vs1 ++ vs2) step dB ∧
      countZones (vs1 ++ none :: vs2) = countZones (vs1 ++ vs2) := by
  intro feed feed2 step sB sQ i j vs1 vs2 dB
  refine ⟨?_, ?_, ?_, ?_, ?_, countZones_skip vs1 vs2⟩
  · intro h
    unfold Binary.run_step
    rw [update_sensors_fail_open feed step sB i h]
  · intro h
    unfold Queue.run_step
    rw [measure_queue_length_fail_open feed sQ i h]
  · intro h
    simp only [Binary.update_sensors]
    rw [h]
  · intro h
    simp only [Queue.measure_queue_length]
    rw [h]
  · unfold senseBinApproach
    rw [nearDetectedNow_skip, farDetectedNow_skip]

/-- Witness for C8 at concrete inputs: the all-failing feed and the empty
state, a `none` vehicle entry inserted into the empty list. -/
theorem fail_open_sensing_witness :
    (Binary.run_step (fun _ => none) 0 initBin =
      Binary.run_step (Function.update (fun _ => none : Feed) 0 (some [])) 0 initBin) ∧
    (Queue.run_step (fun _ => none) 0 initQueue =
      Queue.run_step (Function.update (fun _ => none : Feed) 0 (some [])) 0 initQueue) ∧
    ((Binary.update_sensors (fun _ => none) 0 initBin).inters 0 =
      (Binary.update_sensors (fun _ => none) 0 initBin).inters 0) ∧
    ((Queue.measure_queue_length (fun _ => none) initQueue).inters 0 =
      (Queue.measure_queue_length (fun _ => none) initQueue).inters 0) ∧
    senseBinApproach ([] ++ none :: []) 0 ⟨⟨0, false⟩, ⟨0, false⟩⟩ =
      senseBinApproach ([] ++ []) 0 ⟨⟨0, false⟩, ⟨0, false⟩⟩ ∧
    countZones ([] ++ none :: []) = countZones ([] ++ []) := by
  have h := fail_open_sensing (fun _ => none) (fun _ => none) 0 initBin initQueue 0 0 [] []
    ⟨⟨0, false⟩, ⟨0, false⟩⟩
  exact ⟨h.1 rfl, h.2.1 rfl, h.2.2.1 rfl, h.2.2.2.1 rfl, h.2.2.2.2.1, h.2.2.2.2.2⟩

end Traffic

namespace Traffic

/-! # C10 — near occupancy implies far occupancy (binary mode) -/

theorem near_imp_far (vs : List (Option Vehicle)) (h : nearDetectedNow vs = true) :
    farDetectedNow vs = true := by
  simp only [nearDetectedNow, List.any_eq_true] at h
  obtain ⟨ov, hmem, hp⟩ := h
  simp only [farDetectedNow, List.any_eq_true]
  refine ⟨ov, hmem, ?_⟩
  cases ov with
  | none => simp [vehNear] at hp
  | some v =>
    simp only [vehNear, decide_eq_true_eq] at hp
    simp only [vehFar, decide_eq_true_eq]
    refine ⟨?_, hp.2⟩
    have hd := hp.1
    simp only [NEAR_SENSOR_DISTANCE, FAR_SENSOR_DISTANCE] at hd ⊢
    linarith

theorem binTrace_det (feeds : ℕ → Feed) (n : ℕ) (i : Fin 3) :
    ((binTrace feeds (n + 1)).inters i).det =
      senseBinApproach ((feeds n i).getD []) (n : ℤ) ((binTrace feeds n).inters i).det := by
  show ((Binary.run_step (feeds n) (n : ℤ) (binTrace feeds n)).inters i).det = _
  unfold Binary.run_step
  rw [runStepCore_det]
  rfl

theorem senseBin_inv_step (vs : List (Option Vehicle)) (t : ℤ) (d : BinDet)
    (ht : 0 ≤ t)
    (hnb : 0 ≤ d.near.detect_time) (hnt : d.near.detect_time ≤ t)
    (hfb : 0 ≤ d.far.detect_time) (hft : d.far.detect_time ≤ t)
    (hrel : d.near.detect_time ≠ 0 →
      d.far.detect_time ≠ 0 ∧ d.far.detect_time ≤ d.near.detect_time) :
    0 ≤ (senseBinApproach vs t d).near.detect_time ∧
    (senseBinApproach vs t d).near.detect_time ≤ t + 1 ∧
    0 ≤ (senseBinApproach vs t d).far.detect_time ∧
    (senseBinApproach vs t d).far.detect_time ≤ t + 1 ∧
    ((senseBinApproach vs t d).near.detect_time ≠ 0 →
      (senseBinApproach vs t d).far.detect_time ≠ 0 ∧
      (senseBinApproach vs t d).far.detect_time ≤ (senseBinApproach vs t d).near.detect_time) ∧
    ((senseBinApproach vs t d).near.occupied = true →
      (senseBinApproach vs t d).far.occupied = true) := by
  have hstep_true_dt : ∀ st : SensorSt, (debounceStep true t st).detect_time =
      if st.detect_time = 0 then t else st.detect_time := by
    intro st
    unfold debounceStep
    rw [if_pos (rfl : (true : Bool) = true)]
    dsimp only
    by_cases h0 : st.detect_time = 0
    · rw [if_pos h0]
      split <;> rfl
    · rw [if_neg h0]
      split <;> rfl
  have hstep_true_occ : ∀ st : SensorSt, (debounceStep true t st).occupied =
      decide (SENSOR_DELAY ≤ t - if st.detect_time = 0 then t else st.detect_time) := by
    intro st
    unfold debounceStep
    rw [if_pos (rfl : (true : Bool) = true)]
    dsimp only
    by_cases h0 : st.detect_time = 0
    · rw [if_pos h0]
      split
      next h => exact (decide_eq_true h).symm
      next h => exact (decide_eq_false h).symm
    · rw [if_neg h0]
      split
      next h => exact (decide_eq_true h).symm
      next h => exact (decide_eq_false h).symm
  cases hnn : nearDetectedNow vs with
  | false =>
    have hnear : (senseBinApproach vs t d).near = ⟨0, false⟩ := by
      show debounceStep (nearDetectedNow vs) t d.near = _
      rw [hnn]
      rfl
    cases hfn : farDetectedNow vs with
    | false =>
      have hfar : (senseBinApproach vs t d).far = ⟨0, false⟩ := by
        show debounceStep (farDetectedNow vs) t d.far = _
        rw [hfn]
        rfl
      rw [hnear, hfar]
      dsimp only
      exact ⟨le_refl 0, by omega, le_refl 0, by omega,
        fun hc => absurd rfl hc, fun hc => by simp at hc⟩
    | true =>
      have hfar_dt : (senseBinApproach vs t d).far.detect_time =
          if d.far.detect_time = 0 then t else d.far.detect_time := by
        show (debounceStep (farDetectedNow vs) t d.far).detect_time = _
        rw [hfn, hstep_true_dt]
      rw [hnear, hfar_dt]
      dsimp only
      refine ⟨le_refl 0, by omega, ?_, ?_, fun hc => absurd rfl hc, fun hc => by simp at hc⟩
      · split <;> omega
      · split <;> omega
  | true =>
    have hfn : farDetectedNow vs = true := near_imp_far vs hnn
    have hnear_dt : (senseBinApproach vs t d).near.detect_time =
        if d.near.detect_time = 0 then t else d.near.detect_time := by
      show (debounceStep (nearDetectedNow vs) t d.near).detect_time = _
      rw [hnn, hstep_true_dt]
    have hnear_occ : (senseBinApproach vs t d).near.occupied =
        decide (SENSOR_DELAY ≤ t - if d.near.detect_time = 0 then t else d.near.detect_time) := by
      show (debounceStep (nearDetectedNow vs) t d.near).occupied = _
      rw [hnn, hstep_true_occ]
    have hfar_dt : (senseBinApproach vs t d).far.detect_time =
        if d.far.detect_time = 0 then t else d.far.detect_time := by
      show (debounceStep (farDetectedNow vs) t d.far).detect_time = _
      rw [hfn, hstep_true_dt]
    have hfar_occ : (senseBinApproach vs t d).far.occupied =
        decide (SENSOR_DELAY ≤ t - if d.far.detect_time = 0 then t else d.far.detect_time) := by
      show (debounceStep (farDetectedNow vs) t d.far).occupied = _
      rw [hfn, hstep_true_occ]
    by_cases hn0 : d.near.detect_time = 0
    · by_cases hf0 : d.far.detect_time = 0
      · rw [hnear_dt, hnear_occ, hfar_dt, hfar_occ, if_pos hn0, if_pos hf0]
        exact ⟨ht, by omega, ht, by omega, fun hc => ⟨hc, le_refl t⟩, fun hc => hc⟩
      · rw [hnear_dt, hnear_occ, hfar_dt, hfar_occ, if_pos hn0, if_neg hf0]
        refine ⟨ht, by omega, hfb, by omega, fun _ => ⟨hf0, hft⟩, ?_⟩
        intro hc
        rw [decide_eq_true_eq] at hc
        exfalso
        simp only [SENSOR_DELAY] at hc
        omega
    · have hrel2 := hrel hn0
      rw [hnear_dt, hnear_occ, hfar_dt, hfar_occ, if_neg hn0, if_neg hrel2.1]
      refine ⟨hnb, by omega, hfb, by omega, fun _ => hrel2, ?_⟩
      intro hc
      rw [decide_eq_true_eq] at hc ⊢
      have hle := hrel2.2
      simp only [SENSOR_DELAY] at hc ⊢
      omega

theorem binTrace_sensor_inv (feeds : ℕ → Feed) (n : ℕ) (i : Fin 3) :
    0 ≤ ((binTrace feeds n).inters i).det.near.detect_time ∧
    ((binTrace feeds n).inters i).det.near.detect_time ≤ (n : ℤ) ∧
    0 ≤ ((binTrace feeds n).inters i).det.far.detect_time ∧
    ((binTrace feeds n).inters i).det.far.detect_time ≤ (n : ℤ) ∧
    (((binTrace feeds n).inters i).det.near.detect_time ≠ 0 →
      ((binTrace feeds n).inters i).det.far.detect_time ≠ 0 ∧
      ((binTrace feeds n).inters i).det.far.detect_time ≤
        ((binTrace feeds n).inters i).det.near.detect_time) ∧
    (((binTrace feeds n).inters i).det.near.occupied = true →
      ((binTrace feeds n).inters i).det.far.occupied = true) := by
  induction n with
  | zero =>
    exact ⟨le_refl 0, le_refl 0, le_refl 0, le_refl 0,
      fun hc => absurd rfl hc, fun hc => Bool.noConfusion hc⟩
  | succ n ih =>
    obtain ⟨h1, h2, h3, h4, h5, h6⟩ := ih
    have hstep := senseBin_inv_step ((feeds n i).getD []) (n : ℤ)
      ((binTrace feeds n).inters i).det (Int.natCast_nonneg n) h1 h2 h3 h4 h5
    rw [binTrace_det feeds n i]
    refine ⟨hstep.1, ?_, hstep.2.2.1, ?_, hstep.2.2.2.2.1, hstep.2.2.2.2.2⟩
    · have := hstep.2.1
      push_cast
      omega
    · have := hstep.2.2.2.1
      push_cast
      omega

/-- C10.  In binary mode, because the near radius (20 m) lies inside the
far radius (50 m) and both sensors use the same stopped-speed threshold,
the near candidate implies the far candidate on every tick; along every
run of the binary controller, whenever a near debounce is in progress the
far debounce origin is at least as early (never later), and consequently
whenever `near_sensor_occupied` is true, `far_sensor_occupied` is true —
the "near occupied but far not occupied" state is unreachable. -/
theorem near_occupied_implies_far_occupied (feeds : ℕ → Feed) (n : ℕ) (i : Fin 3) :
    (∀ vs, nearDetectedNow vs = true → farDetectedNow vs = true) ∧
    (((binTrace feeds n).inters i).det.near.detect_time ≠ 0 →
      ((binTrace feeds n).inters i).det.far.detect_time ≤
        ((binTrace feeds n).inters i).det.near.detect_time) ∧
    (((binTrace feeds n).inters i).det.near.occupied = true →
      ((binTrace feeds n).inters i).det.far.occupied = true) := by
  obtain ⟨_, _, _, _, h5, h6⟩ := binTrace_sensor_inv feeds n i
  exact ⟨fun vs => near_imp_far vs, fun hc => (h5 hc).2, h6⟩

theorem nearCand_const : nearDetectedNow [some (Vehicle.mk 10 0)] = true := by
  simp only [nearDetectedNow, List.any_cons, List.any_nil, Bool.or_false, vehNear,
    decide_eq_true_eq]
  norm_num [NEAR_SENSOR_DISTANCE]

theorem binTrace_const_near (k : ℕ) (i : Fin 3) :
    ((binTrace (fun _ _ => some [some (Vehicle.mk 10 0)]) (k + 1)).inters i).det.near =
      debounceTrueRun 0 k := by
  induction k with
  | zero =>
    rw [binTrace_det]
    show debounceStep (nearDetectedNow [some (Vehicle.mk 10 0)]) ((0 : ℕ) : ℤ)
        (⟨0, false⟩ : SensorSt) = debounceTrueRun 0 0
    rw [nearCand_const]
    rfl
  | succ k ih =>
    rw [binTrace_det]
    show debounceStep (nearDetectedNow [some (Vehicle.mk 10 0)]) (((k + 1) : ℕ) : ℤ)
        (((binTrace (fun _ _ => some [some (Vehicle.mk 10 0)]) (k + 1)).inters i).det.near)
      = debounceTrueRun 0 (k + 1)
    rw [nearCand_const, ih]
    simp only [debounceTrueRun]
    rw [zero_add]

/-- Witness for C10 at a concrete input: under a feed that always reports
one stopped vehicle 10 m out on every approach, after 13 ticks the near
flag of approach 0 is set, its debounce origin is tick 1 (nonzero), and by
the theorem the far candidate, origin ordering and far flag follow. -/
theorem near_occupied_implies_far_occupied_witness :
    farDetectedNow [some (Vehicle.mk 10 0)] = true ∧
    ((binTrace (fun _ _ => some [some (Vehicle.mk 10 0)]) 13).inters 0).det.far.detect_time ≤
      ((binTrace (fun _ _ => some [some (Vehicle.mk 10 0)]) 13).inters 0).det.near.detect_time ∧
    ((binTrace (fun _ _ => some [some (Vehicle.mk 10 0)]) 13).inters 0).det.far.occupied = true := by
  have h := near_occupied_implies_far_occupied (fun _ _ => some [some (Vehicle.mk 10 0)]) 13 0
  have hnear : ((binTrace (fun _ _ => some [some (Vehicle.mk 10 0)]) 13).inters 0).det.near =
      debounceTrueRun 0 12 := binTrace_const_near 12 0
  refine ⟨h.1 [some (Vehicle.mk 10 0)] nearCand_const, h.2.1 ?_, h.2.2 ?_⟩
  · rw [hnear]
    decide
  · rw [hnear]
    decide

end Traffic
